import Mathlib

/-!
Verification of the instrument session/protocol engine of the dual
spectrum-analyzer viewer (`src/main.py`, class `DualSAViewer`).

The Python code is shallowly embedded: strings are `List Char`, Python
`float`/`int` numerals are modelled over `ℚ`, failure of a Python call
(an exception) is `Option`/`Except`, and the stateful pieces (the
continuous-sweep loop, the peak-hold arrays, the two-panel viewer) are
explicit state-passing functions.  All definitions are translated from
the source; nothing is simplified away from the control flow the claims
are about.
-/

/-- Whitespace as stripped by Python's `str.strip()` / `float()` / `int()`
(the common ASCII whitespace characters). -/
def isPyWs (c : Char) : Bool :=
  c = ' ' || c = '\t' || c = '\n' || c = '\r'

/-- `str.strip()` on a character list: drop whitespace from both ends. -/
def trimWs (cs : List Char) : List Char :=
  ((cs.dropWhile isPyWs).reverse.dropWhile isPyWs).reverse

/-- Value of a string of decimal digit characters, most significant first. -/
def digitsVal (cs : List Char) : ℕ :=
  cs.foldl (fun a c => 10 * a + (c.toNat - 48)) 0

/-- Split a numeral at the first exponent marker `e`/`E`:
mantissa part and (optional) exponent part. -/
def splitExpAux : List Char → List Char × Option (List Char)
  | [] => ([], none)
  | c :: rest =>
    if c = 'e' || c = 'E' then ([], some rest)
    else
      let r := splitExpAux rest
      (c :: r.1, r.2)

/-- Parse the mantissa of a Python float literal: digits with an optional
single decimal point, at least one digit overall. -/
def parseMantissa (cs : List Char) : Option ℚ :=
  let ip := cs.takeWhile Char.isDigit
  let rest := cs.dropWhile Char.isDigit
  match rest with
  | [] => if ip.isEmpty then none else some (digitsVal ip)
  | c :: frac =>
    if c = '.' then
      if frac.all Char.isDigit && !(ip.isEmpty && frac.isEmpty) then
        some ((digitsVal ip : ℚ) + (digitsVal frac : ℚ) / (10 : ℚ) ^ frac.length)
      else none
    else none

/-- Parse the exponent part of a Python float literal: optional sign then
at least one digit. -/
def parseExpPart (cs : List Char) : Option ℤ :=
  match cs with
  | [] => none
  | c :: ds =>
    if c = '+' then
      if !ds.isEmpty && ds.all Char.isDigit then some (digitsVal ds) else none
    else if c = '-' then
      if !ds.isEmpty && ds.all Char.isDigit then some (-(digitsVal ds : ℤ)) else none
    else
      if (c :: ds).all Char.isDigit then some (digitsVal (c :: ds)) else none

/-- Unsigned part of Python `float(...)` on decimal numerals:
mantissa with optional `e`/`E` exponent. -/
def pyFloatUnsigned (cs : List Char) : Option ℚ :=
  let p := splitExpAux cs
  match p.2 with
  | none => parseMantissa p.1
  | some e =>
    match parseMantissa p.1, parseExpPart e with
    | some m, some z => some (m * (10 : ℚ) ^ z)
    | _, _ => none

/-- Model of Python `float(s)` on decimal numerals (returns `none` where
Python raises `ValueError`).  Strips outer whitespace, handles an optional
sign, digits, one decimal point and a decimal exponent. -/
def pyFloat (cs : List Char) : Option ℚ :=
  match trimWs cs with
  | [] => none
  | c :: rest =>
    if c = '+' then pyFloatUnsigned rest
    else if c = '-' then (pyFloatUnsigned rest).map (fun q => -q)
    else pyFloatUnsigned (c :: rest)

/-- Model of Python `int(s)` on the nonnegative decimal strings produced by
header slicing (returns `none` where Python raises `ValueError`). -/
def pyNat (cs : List Char) : Option ℕ :=
  let ds := trimWs cs
  if !ds.isEmpty && ds.all Char.isDigit then some (digitsVal ds) else none

/-- `s.replace(",", ".")` character map used on the numeric entry fields. -/
def commaToDot (c : Char) : Char :=
  if c = ',' then '.' else c

/-- Write a `.` decimal separator as `,` (used to state the claim that both
separators parse alike). -/
def dotToComma (c : Char) : Char :=
  if c = '.' then ',' else c

/-- The two frequency-entry modes of a panel (`panel.freq_mode`). -/
inductive FreqMode
  | startStop
  | centerSpan
deriving DecidableEq

/-- The exception raised by a failed `float(...)` conversion. -/
inductive PyErr
  | valueError
deriving DecidableEq

/-- `float(field.replace(",", "."))`: parse one numeric entry field. -/
def parseFieldFloat (cs : List Char) : Except PyErr ℚ :=
  match pyFloat (cs.map commaToDot) with
  | some q => Except.ok q
  | none => Except.error PyErr.valueError

/-- `DualSAViewer._get_freq_range_for_panel`: resolve the panel's two
numeric fields into a `(start, stop)` pair according to the frequency
mode.  In `centerSpan` mode the fields are center and span; in
`startStop` mode they are start and stop, taken directly.  A failed
`float` conversion propagates as the error.  No start/stop ordering
check is performed by the source. -/
def getFreqRangeForPanel (mode : FreqMode) (f1 f2 : List Char) :
    Except PyErr (ℚ × ℚ) :=
  match mode with
  | FreqMode.centerSpan =>
    match parseFieldFloat f1 with
    | Except.error e => Except.error e
    | Except.ok center =>
      match parseFieldFloat f2 with
      | Except.error e => Except.error e
      | Except.ok span => Except.ok (center - span / 2, center + span / 2)
  | FreqMode.startStop =>
    match parseFieldFloat f1 with
    | Except.error e => Except.error e
    | Except.ok start =>
      match parseFieldFloat f2 with
      | Except.error e => Except.error e
      | Except.ok stop => Except.ok (start, stop)

/-- Python `s.split(",")`: split on every comma, keeping empty pieces. -/
def splitOnComma : List Char → List (List Char)
  | [] => [[]]
  | c :: rest =>
    if c = ',' then [] :: splitOnComma rest
    else
      match splitOnComma rest with
      | [] => [[c]]
      | t :: ts => (c :: t) :: ts

/-- The header-slicing step of `DualSAViewer._read_trace_ascii_block`
(lines 1455-1462 of `src/main.py`): if the stripped response starts with
`#`, the next character is the digit count `n` of a decimal length field,
and exactly that many payload characters are sliced as the data region;
otherwise the whole response is the data region.  `none` models the
Python exceptions (`IndexError` on a lone `#`, `ValueError` from
`int(...)` on a malformed digit or length field). -/
def extractDataRegion (raw : List Char) : Option (List Char) :=
  match raw with
  | [] => some []
  | c :: rest =>
    if c = '#' then
      match rest with
      | [] => none
      | d :: rest2 =>
        if d.isDigit then
          match pyNat (rest2.take (d.toNat - 48)) with
          | none => none
          | some dataLen => some ((rest2.drop (d.toNat - 48)).take dataLen)
        else none
    else some raw

/-- Convert each comma token with `float`; a token `float` rejects makes
the whole read fail (Python raises inside the list comprehension's
consumer). -/
def parseFloats : List (List Char) → Option (List ℚ)
  | [] => some []
  | p :: ps =>
    (pyFloat p).bind (fun v => (parseFloats ps).map (fun vs => v :: vs))

/-- The amplitude-parsing step of `_read_trace_ascii_block` (lines
1464-1465): split the data region on commas, keep the tokens whose strip
is non-empty, and convert each with `float`. -/
def decodeAmplitudes (raw : List Char) : Option (List ℚ) :=
  match extractDataRegion raw with
  | none => none
  | some ds =>
    parseFloats ((splitOnComma ds).filter (fun p => !(trimWs p).isEmpty))

/-- `numpy.linspace a b n` over `ℚ`: `n` evenly spaced samples; for
`n = 1` the single sample is `a`, matching numpy. -/
def linspace (a b : ℚ) (n : ℕ) : List ℚ :=
  if n = 0 then []
  else if n = 1 then [a]
  else (List.range n).map (fun (i : ℕ) => a + (b - a) * (i : ℚ) / ((n : ℚ) - 1))

/-- `DualSAViewer._read_trace_ascii_block`, decode part (lines
1453-1471): strip the raw response, slice the data region, parse the
amplitudes, rebuild the frequency axis from the decoded count (not the
declared point count), and flag — non-fatally — whether the decoded
count differs from the declared one (the Python `print` warning). -/
def readTraceAsciiBlock (resp : List Char) (points : ℕ) (fStart fStop : ℚ) :
    Option (List ℚ × List ℚ × Bool) :=
  match decodeAmplitudes (trimWs resp) with
  | none => none
  | some vals =>
    some (linspace fStart fStop vals.length, vals, vals.length != points)

/-- Decimal rendering of a natural number, most significant digit first
(fuel-based so the kernel can evaluate it). -/
def natDigitsAux : ℕ → ℕ → List Char
  | 0, _ => []
  | _, 0 => []
  | fuel + 1, n + 1 =>
    natDigitsAux fuel ((n + 1) / 10) ++ [Nat.digitChar ((n + 1) % 10)]

/-- Decimal rendering of a natural number as Python's `str` would print
it (`"0"` for zero). -/
def natDigits (n : ℕ) : List Char :=
  if n = 0 then ['0'] else natDigitsAux n n

/-- The definite-length block framing described by the specification: a
`#`, the single digit `N` counting the digits of the byte length, the
`N`-digit decimal byte length, and exactly that many payload bytes.
Used to state the claim that decoding a framed payload agrees with
decoding the bare payload. -/
def encodeBlock (payload : List Char) : List Char :=
  '#' :: Nat.digitChar (natDigits payload.length).length ::
    (natDigits payload.length ++ payload)

/-- The protocol writes issued by `DualSAViewer._configure_sa`, as an
abstract command alphabet. -/
inductive Cmd
  | bandResAuto
  | bandRes (hz : ℚ)
  | freqStar (hz : ℚ)
  | freqStop (hz : ℚ)
  | freqCent (hz : ℚ)
  | freqSpan (hz : ℚ)
  | swePoin (n : ℕ)
  | bandVid (hz : ℚ)
  | detPos
  | formTracAscii
deriving DecidableEq

/-- `bw.replace('k', 'e3').replace('M', 'e6')`: expand the bandwidth
suffixes before the `float` conversion. -/
def expandSuffix (cs : List Char) : List Char :=
  cs.foldr
    (fun c acc =>
      if c = 'k' then 'e' :: '3' :: acc
      else if c = 'M' then 'e' :: '6' :: acc
      else c :: acc)
    []

/-- `float(bw.replace('k', 'e3').replace('M', 'e6'))`. -/
def parseBw (cs : List Char) : Option ℚ :=
  pyFloat (expandSuffix cs)

/-- First configuration step of `_configure_sa` (lines 1397-1401): the
`auto` sentinel writes `:BAND:RES:AUTO ON`; otherwise the bandwidth is
converted (suffix-expanded `float`, failure = `none`) and written. -/
def resBwStep (bwRes : List Char) : Option Cmd :=
  if bwRes = "auto".toList then some Cmd.bandResAuto
  else (parseBw bwRes).map Cmd.bandRes

/-- The fixed tail of configuration writes after the resolution-bandwidth
write and the video-bandwidth conversion (lines 1405-1420). -/
def configCmdsTail (startHz stopHz centerHz spanHz : ℚ) (points : ℕ)
    (vbw : ℚ) : List Cmd :=
  [Cmd.freqStar startHz, Cmd.freqStop stopHz, Cmd.freqCent centerHz,
   Cmd.freqSpan spanHz, Cmd.swePoin points, Cmd.bandVid vbw,
   Cmd.detPos, Cmd.formTracAscii]

/-- Issue a list of writes in order; the oracle `ok` says whether a write
succeeds.  A failing write raises, so it is the last one attempted; the
second component records that an exception occurred. -/
def issueWrites (ok : Cmd → Bool) : List Cmd → List Cmd × Bool
  | [] => ([], false)
  | c :: cs =>
    if ok c then
      ((issueWrites ok cs).1.cons c, (issueWrites ok cs).2)
    else ([c], true)

/-- `DualSAViewer._configure_sa` (lines 1390-1422): the whole
configuration sequence sits inside one `try`/`except` that logs and
returns.  The result is the list of writes actually attempted (an
exception aborts the rest) and whether an error was caught.  Frequencies
arrive in MHz and are scaled to Hz; center and span are derived. -/
def configureSa (ok : Cmd → Bool) (startMhz stopMhz : ℚ) (points : ℕ)
    (bwRes bwVid : List Char) : List Cmd × Bool :=
  let startHz := startMhz * 1000000
  let stopHz := stopMhz * 1000000
  let centerHz := (startHz + stopHz) / 2
  let spanHz := stopHz - startHz
  match resBwStep bwRes with
  | none => ([], true)
  | some c1 =>
    if ok c1 then
      match parseBw bwVid with
      | none => ([c1], true)
      | some vbw =>
        ((issueWrites ok
            (configCmdsTail startHz stopHz centerHz spanHz points vbw)).1.cons c1,
         (issueWrites ok
            (configCmdsTail startHz stopHz centerHz spanHz points vbw)).2)
    else ([c1], true)

/-- Sleep duration of `DualSAViewer._single_sweep` (lines 1428-1434):
after the trigger, `:SWE:TIME?` is queried; `resp = none` models a failed
query or read, `some s` a response text.  A failure anywhere in the
`try` (including an unparsable response) silently falls back to the
1.5 s default duration; the sleep is `max(1.5, 1.1 * duration)`. -/
def singleSweepSleep (resp : Option (List Char)) : ℚ :=
  let st : ℚ :=
    match resp with
    | none => 3 / 2
    | some s =>
      match pyFloat s with
      | some v => v
      | none => 3 / 2
  max (3 / 2) (st * (11 / 10))

/-- How the continuous-sweep `while` loop of `_start_continuous1` /
`_start_continuous2` terminated. -/
inductive LoopExit
  | flagCleared
  | disconnected
  | iterError
  | setupError
  | fuelExhausted
deriving DecidableEq

/-- The `while self.continuousN and self.instN is not None` loop (lines
1538-1554 and 1680-1696): `flag k` and `inst k` are the values the k-th
guard check reads (the flag is mutated externally by the toggle
handler), `ok k` tells whether iteration k completes without an I/O
error.  A failed iteration prints, sleeps briefly and `break`s.  Returns
the number of iterations attempted and the exit kind; `fuel` bounds the
observation window. -/
def contLoop (flag inst ok : ℕ → Bool) : ℕ → ℕ → ℕ × LoopExit
  | 0, k => (k, LoopExit.fuelExhausted)
  | fuel + 1, k =>
    if flag k = false then (k, LoopExit.flagCleared)
    else if inst k = false then (k, LoopExit.disconnected)
    else if ok k then contLoop flag inst ok fuel (k + 1)
    else (k + 1, LoopExit.iterError)

/-- Outcome of one run of the `do_continuous` worker. -/
structure ContRunResult where
  itersAttempted : ℕ
  exitKind : LoopExit
  runningFlagAfter : Bool
  restoreTriggerIssued : Bool
deriving DecidableEq

/-- One run of the `do_continuous` worker of `_start_continuousN` (lines
1523-1567): configuration/setup may fail (`setupOk = false`, caught by
the outer `except`), then the guarded loop runs; the `finally` block
always attempts the `:INIT:CONT OFF` restore write (its own failure is
suppressed by the inner bare `except`) and always clears the running
flag. -/
def startContinuousRun (setupOk : Bool) (flag inst ok : ℕ → Bool)
    (fuel : ℕ) : ContRunResult :=
  if setupOk then
    { itersAttempted := (contLoop flag inst ok fuel 0).1,
      exitKind := (contLoop flag inst ok fuel 0).2,
      runningFlagAfter := false,
      restoreTriggerIssued := true }
  else
    { itersAttempted := 0,
      exitKind := LoopExit.setupError,
      runningFlagAfter := false,
      restoreTriggerIssued := true }

/-- `DualSAViewer.toggle_continuousN` (lines 1508-1517) for a connected
session: flip the flag; only when the new value is `true` is the loop
worker spawned.  Returns (new flag value, whether a loop was spawned). -/
def toggleContinuous (inst : Option ℕ) (cont : Bool) : Bool × Bool :=
  match inst with
  | none => (cont, false)
  | some _ => (!cont, !cont)

/-- The per-session peak-hold state (`self.max_freqsN` / `self.max_valsN`,
`None` when no state is held). -/
structure PeakHold where
  maxFreqs : Option (List ℚ)
  maxVals : Option (List ℚ)
deriving DecidableEq

/-- The peak-hold part of `DualSAViewer._update_plotN` (lines 1574-1578):
reinitialize with copies of the incoming trace when there is no held
state or the held length differs from the trace length; otherwise take
the element-wise maximum, leaving the held frequency axis alone. -/
def updatePlot (st : PeakHold) (freqs vals : List ℚ) : PeakHold :=
  match st.maxVals, st.maxFreqs with
  | some mv, some mf =>
    if mv.length = vals.length then
      { maxFreqs := some mf, maxVals := some (List.zipWith max mv vals) }
    else
      { maxFreqs := some freqs, maxVals := some vals }
  | _, _ => { maxFreqs := some freqs, maxVals := some vals }

/-- `DualSAViewer.reset_peakN`: clear both held arrays. -/
def resetPeak : PeakHold :=
  { maxFreqs := none, maxVals := none }

/-- The state of one analyzer session as `connectN` sees it: instrument
handle, continuous flag, panel indicators, message, peak-hold arrays and
plot. -/
structure SessionView where
  inst : Option ℕ
  continuous : Bool
  panelConnected : Bool
  panelContinuousActive : Bool
  message : List Char
  maxFreqs : Option (List ℚ)
  maxVals : Option (List ℚ)
  plotCleared : Bool
deriving DecidableEq

/-- The two independent sessions of the viewer. -/
structure Viewer where
  sa1 : SessionView
  sa2 : SessionView
deriving DecidableEq

/-- Outcome of an attempted `open_resource` + `*IDN?` handshake. -/
inductive ConnectAttempt
  | success (handle : ℕ) (idn : List Char)
  | failure
deriving DecidableEq

/-- `DualSAViewer.connect1` (lines 1302-1344); `connect2` is the mirror
image on `sa2`.  With an empty address a message box is shown and the
state is untouched.  When `inst1` is already set the call is a
disconnect toggle: clear the continuous flag and indicator, close the
transport (`closeFails` models a close that raises; it is suppressed by
the bare `except`), drop the handle, mark disconnected, discard the
peak-hold state and clear the plot.  Only when `inst1` is `None` is a
connection attempted. -/
def connect1 (v : Viewer) (ip : List Char) (closeFails : Bool)
    (att : ConnectAttempt) : Viewer :=
  if ip = [] then v
  else
    match v.sa1.inst with
    | some _ =>
      { v with sa1 :=
        { v.sa1 with
          continuous := false
          panelContinuousActive := false
          inst := none
          panelConnected := false
          message := "Disconnected".toList
          maxVals := none
          maxFreqs := none
          plotCleared := true } }
    | none =>
      match att with
      | ConnectAttempt.success h _ =>
        { v with sa1 :=
          { v.sa1 with
            inst := some h
            panelConnected := true
            message := "Connected successfully".toList } }
      | ConnectAttempt.failure =>
        { v with sa1 :=
          { v.sa1 with
            inst := none
            panelConnected := false
            message := "Connection failed".toList } }

/-- Write oracle for the C2 counterexample: exactly the numeric
resolution-bandwidth write fails; every other write succeeds. -/
def okExceptBandRes : Cmd → Bool
  | Cmd.bandRes _ => false
  | _ => true

-- helper lemmas ---------------------------------------------------------

theorem digitChar_isDigit {d : ℕ} (h : d < 10) :
    (Nat.digitChar d).isDigit = true := by
  interval_cases d <;> decide

theorem digitChar_toNat {d : ℕ} (h : d < 10) :
    (Nat.digitChar d).toNat = 48 + d := by
  interval_cases d <;> decide

theorem digitsVal_append_digit (xs : List Char) (c : Char) :
    digitsVal (xs ++ [c]) = 10 * digitsVal xs + (c.toNat - 48) := by
  unfold digitsVal
  rw [List.foldl_append]
  rfl

theorem digitsVal_natDigitsAux (fuel n : ℕ) (h : n ≤ fuel) :
    digitsVal (natDigitsAux fuel n) = n := by
  induction fuel generalizing n with
  | zero =>
    have : n = 0 := by omega
    subst this
    rfl
  | succ fuel ih =>
    match n with
    | 0 => rfl
    | m + 1 =>
      rw [natDigitsAux, digitsVal_append_digit, ih ((m + 1) / 10) (by omega),
        digitChar_toNat (Nat.mod_lt _ (by omega))]
      omega

theorem digitsVal_natDigits (n : ℕ) : digitsVal (natDigits n) = n := by
  unfold natDigits
  split
  · rename_i h
    subst h
    rfl
  · exact digitsVal_natDigitsAux n n le_rfl

theorem natDigitsAux_all_digit (fuel n : ℕ) :
    (natDigitsAux fuel n).all Char.isDigit = true := by
  induction fuel generalizing n with
  | zero => cases n <;> rfl
  | succ fuel ih =>
    match n with
    | 0 => rfl
    | m + 1 =>
      rw [natDigitsAux, List.all_append, ih ((m + 1) / 10)]
      simp [digitChar_isDigit (Nat.mod_lt _ (by omega))]

theorem natDigits_all_digit (n : ℕ) : (natDigits n).all Char.isDigit = true := by
  unfold natDigits
  split
  · rfl
  · exact natDigitsAux_all_digit n n

theorem natDigits_ne_nil (n : ℕ) : natDigits n ≠ [] := by
  unfold natDigits
  split
  · simp
  · rename_i h
    match hm : n, h with
    | m + 1, _ =>
      rw [natDigitsAux]
      simp

theorem dropWhile_eq_self_of_all_false {p : Char → Bool} (l : List Char)
    (h : ∀ c ∈ l, p c = false) : l.dropWhile p = l := by
  cases l with
  | nil => rfl
  | cons c rest =>
    rw [List.dropWhile_cons, h c (List.mem_cons_self c rest)]
    simp

theorem trimWs_eq_self (l : List Char) (h : ∀ c ∈ l, isPyWs c = false) :
    trimWs l = l := by
  unfold trimWs
  rw [dropWhile_eq_self_of_all_false l h,
    dropWhile_eq_self_of_all_false l.reverse
      (fun c hc => h c (List.mem_reverse.mp hc)),
    List.reverse_reverse]

theorem isDigit_not_ws {c : Char} (h : c.isDigit = true) : isPyWs c = false := by
  unfold isPyWs
  by_contra hc
  simp only [Bool.not_eq_false, Bool.or_eq_true, decide_eq_true_eq] at hc
  rcases hc with ((h1 | h1) | h1) | h1 <;> subst h1 <;> exact absurd h (by decide)

theorem pyNat_digits (l : List Char) (hne : l ≠ [])
    (hd : l.all Char.isDigit = true) : pyNat l = some (digitsVal l) := by
  unfold pyNat
  have hall : ∀ c ∈ l, Char.isDigit c = true := List.all_eq_true.mp hd
  rw [trimWs_eq_self l (fun c hc => isDigit_not_ws (hall c hc))]
  simp [hne, hd]

theorem extractDataRegion_encodeBlock (payload : List Char)
    (h9 : (natDigits payload.length).length ≤ 9) :
    extractDataRegion (encodeBlock payload) = some payload := by
  have hdig : (Nat.digitChar (natDigits payload.length).length).isDigit = true :=
    digitChar_isDigit (by omega)
  have htn : (Nat.digitChar (natDigits payload.length).length).toNat =
      48 + (natDigits payload.length).length :=
    digitChar_toNat (by omega)
  simp only [encodeBlock, extractDataRegion, hdig, htn, if_true,
    Nat.add_sub_cancel_left, List.take_left, List.drop_left,
    pyNat_digits _ (natDigits_ne_nil payload.length)
      (natDigits_all_digit payload.length),
    digitsVal_natDigits, List.take_length, if_pos rfl]

theorem extractDataRegion_not_hash (raw : List Char)
    (h : raw.head? ≠ some '#') : extractDataRegion raw = some raw := by
  cases raw with
  | nil => rfl
  | cons c rest =>
    have hc : c ≠ '#' := by simpa using h
    simp [extractDataRegion, hc]

theorem linspace_length (a b : ℚ) (n : ℕ) : (linspace a b n).length = n := by
  unfold linspace
  split_ifs with h1 h2
  · simp [h1]
  · simp [h2]
  · simp

theorem linspace_getElem (a b : ℚ) (n i : ℕ) (hn : 2 ≤ n) (hi : i < n) :
    (linspace a b n)[i]? = some (a + (b - a) * i / ((n : ℚ) - 1)) := by
  unfold linspace
  rw [if_neg (by omega), if_neg (by omega), List.getElem?_map,
    List.getElem?_range hi]
  rfl

theorem sub_one_ne_zero_of_two_le {n : ℕ} (hn : 2 ≤ n) : ((n : ℚ) - 1) ≠ 0 := by
  have h2 : (2 : ℚ) ≤ (n : ℚ) := by exact_mod_cast hn
  intro h
  rw [sub_eq_zero] at h
  rw [h] at h2
  norm_num at h2

theorem linspace_first (a b : ℚ) (n : ℕ) (hn : 2 ≤ n) :
    (linspace a b n)[0]? = some a := by
  rw [linspace_getElem a b n 0 hn (by omega)]
  norm_num

theorem linspace_last (a b : ℚ) (n : ℕ) (hn : 2 ≤ n) :
    (linspace a b n)[n - 1]? = some b := by
  rw [linspace_getElem a b n (n - 1) hn (by omega)]
  congr 1
  have hc : ((n - 1 : ℕ) : ℚ) = (n : ℚ) - 1 := by
    push_cast [Nat.cast_sub (by omega : 1 ≤ n)]
    ring
  rw [hc, mul_div_assoc, div_self (sub_one_ne_zero_of_two_le hn), mul_one]
  ring

theorem linspace_step (a b : ℚ) (n i : ℕ) (hn : 2 ≤ n) (hi : i + 1 < n) :
    (linspace a b n)[i + 1]? =
      ((linspace a b n)[i]?).map (fun x => x + (b - a) / ((n : ℚ) - 1)) := by
  rw [linspace_getElem a b n (i + 1) hn hi,
    linspace_getElem a b n i hn (by omega)]
  simp only [Option.map_some']
  congr 1
  have hnz := sub_one_ne_zero_of_two_le hn
  push_cast
  field_simp
  ring

-- further helper lemmas ------------------------------------------------

theorem map_commaToDot_of_no_comma (l : List Char) (h : ¬ ',' ∈ l) :
    l.map commaToDot = l := by
  induction l with
  | nil => rfl
  | cons c rest ih =>
    have hc : ¬ c = ',' := by
      intro hcc
      exact h (by rw [hcc]; exact List.mem_cons_self ',' rest)
    have hr : ¬ ',' ∈ rest := fun hm => h (List.mem_cons_of_mem c hm)
    simp [commaToDot, hc, ih hr]

theorem map_round_comma (l : List Char) (h : ¬ ',' ∈ l) :
    (l.map dotToComma).map commaToDot = l := by
  rw [List.map_map]
  induction l with
  | nil => rfl
  | cons c rest ih =>
    have hc : ¬ c = ',' := by
      intro hcc
      exact h (by rw [hcc]; exact List.mem_cons_self ',' rest)
    have hr : ¬ ',' ∈ rest := fun hm => h (List.mem_cons_of_mem c hm)
    have hstep : commaToDot (dotToComma c) = c := by
      by_cases hd : c = '.'
      · subst hd; rfl
      · simp [dotToComma, commaToDot, hd, hc]
    simp only [List.map_cons, Function.comp_apply, hstep]
    simpa using ih hr

theorem issueWrites_all_ok (ok : Cmd → Bool) (cs : List Cmd)
    (h : ∀ c ∈ cs, ok c = true) : issueWrites ok cs = (cs, false) := by
  induction cs with
  | nil => rfl
  | cons c cs ih =>
    rw [issueWrites, if_pos (h c (List.mem_cons_self c cs)),
      ih (fun x hx => h x (List.mem_cons_of_mem c hx))]

-- claim theorems ---------------------------------------------------------

/-- Claim C1, counterexample: with both fields equal to `10` (so start =
stop), `_get_freq_range_for_panel` in start/stop mode returns the range
`(10, 10)` instead of failing with a validation error — the source
performs no start < stop check. -/
theorem getFreqRange_start_eq_stop_ok :
    getFreqRangeForPanel FreqMode.startStop ("10".toList) ("10".toList) =
      Except.ok (10, 10) := by
  simp [getFreqRangeForPanel, parseFieldFloat, commaToDot, pyFloat,
    pyFloatUnsigned, splitExpAux, parseMantissa, digitsVal, trimWs, isPyWs]

/-- Claim C1 (amended): frequency-range resolution in start/stop mode
fails (with the `float`-conversion error) when either field is
non-numeric, but performs no ordering check: whenever both fields parse,
the pair is returned as-is, even when start ≥ stop. -/
theorem getFreqRange_validation :
    ∀ (f1 f2 : List Char),
      (parseFieldFloat f1 = Except.error PyErr.valueError →
        getFreqRangeForPanel FreqMode.startStop f1 f2 =
          Except.error PyErr.valueError) ∧
      (∀ q1, parseFieldFloat f1 = Except.ok q1 →
        parseFieldFloat f2 = Except.error PyErr.valueError →
        getFreqRangeForPanel FreqMode.startStop f1 f2 =
          Except.error PyErr.valueError) ∧
      (∀ q1 q2, parseFieldFloat f1 = Except.ok q1 →
        parseFieldFloat f2 = Except.ok q2 →
        getFreqRangeForPanel FreqMode.startStop f1 f2 =
          Except.ok (q1, q2)) := by
  intro f1 f2
  refine ⟨?_, ?_, ?_⟩
  · intro h1
    simp [getFreqRangeForPanel, h1]
  · intro q1 h1 h2
    simp [getFreqRangeForPanel, h1, h2]
  · intro q1 q2 h1 h2
    simp [getFreqRangeForPanel, h1, h2]

/-- Witness for `getFreqRange_validation` at concrete inputs: a
non-numeric field fails, and the numeric pair (10, 10) is returned
unchanged. -/
theorem getFreqRange_validation_witness :
    parseFieldFloat ("abc".toList) = Except.error PyErr.valueError ∧
    getFreqRangeForPanel FreqMode.startStop ("abc".toList) ("5".toList) =
      Except.error PyErr.valueError ∧
    parseFieldFloat ("10".toList) = Except.ok 10 ∧
    getFreqRangeForPanel FreqMode.startStop ("10".toList) ("10".toList) =
      Except.ok (10, 10) := by
  have h1 : parseFieldFloat ("abc".toList) = Except.error PyErr.valueError := by
    simp [parseFieldFloat, commaToDot, pyFloat, pyFloatUnsigned, splitExpAux,
      parseMantissa, digitsVal, trimWs, isPyWs]
  have h2 : parseFieldFloat ("10".toList) = Except.ok 10 := by
    simp [parseFieldFloat, commaToDot, pyFloat, pyFloatUnsigned, splitExpAux,
      parseMantissa, digitsVal, trimWs, isPyWs]
  exact ⟨h1, (getFreqRange_validation ("abc".toList) ("5".toList)).1 h1, h2,
    (getFreqRange_validation ("10".toList) ("10".toList)).2.2 10 10 h2 h2⟩

/-- Claim C9: start/stop mode returns the parsed fields unchanged,
center/span mode returns (center - span/2, center + span/2), and a
numeric field written with `,` as the decimal separator parses to the
same value as with `.`. -/
theorem getFreqRange_modes_spec :
    ∀ (f1 f2 : List Char) (q1 q2 : ℚ),
      (parseFieldFloat f1 = Except.ok q1 →
        parseFieldFloat f2 = Except.ok q2 →
        getFreqRangeForPanel FreqMode.startStop f1 f2 = Except.ok (q1, q2) ∧
        getFreqRangeForPanel FreqMode.centerSpan f1 f2 =
          Except.ok (q1 - q2 / 2, q1 + q2 / 2)) ∧
      (¬ ',' ∈ f1 →
        parseFieldFloat (f1.map dotToComma) = parseFieldFloat f1) := by
  intro f1 f2 q1 q2
  constructor
  · intro h1 h2
    constructor <;> simp [getFreqRangeForPanel, h1, h2]
  · intro hnc
    unfold parseFieldFloat
    rw [map_round_comma f1 hnc, map_commaToDot_of_no_comma f1 hnc]

/-- Witness for `getFreqRange_modes_spec`: resolve(StartStop, 0, 3000) =
(0, 3000), resolve(CenterSpan, 1000, 2000) = (0, 2000), and "1,5"
parses like "1.5". -/
theorem getFreqRange_modes_spec_witness :
    getFreqRangeForPanel FreqMode.startStop ("0".toList) ("3000".toList) =
      Except.ok (0, 3000) ∧
    getFreqRangeForPanel FreqMode.centerSpan ("1000".toList) ("2000".toList) =
      Except.ok (0, 2000) ∧
    parseFieldFloat (("1.5".toList).map dotToComma) =
      parseFieldFloat ("1.5".toList) := by
  have ha : parseFieldFloat ("0".toList) = Except.ok 0 := by
    simp [parseFieldFloat, commaToDot, pyFloat, pyFloatUnsigned, splitExpAux,
      parseMantissa, digitsVal, trimWs, isPyWs]
  have hb : parseFieldFloat ("3000".toList) = Except.ok 3000 := by
    simp [parseFieldFloat, commaToDot, pyFloat, pyFloatUnsigned, splitExpAux,
      parseMantissa, digitsVal, trimWs, isPyWs]
  have hc : parseFieldFloat ("1000".toList) = Except.ok 1000 := by
    simp [parseFieldFloat, commaToDot, pyFloat, pyFloatUnsigned, splitExpAux,
      parseMantissa, digitsVal, trimWs, isPyWs]
  have hd : parseFieldFloat ("2000".toList) = Except.ok 2000 := by
    simp [parseFieldFloat, commaToDot, pyFloat, pyFloatUnsigned, splitExpAux,
      parseMantissa, digitsVal, trimWs, isPyWs]
  refine ⟨?_, ?_, ?_⟩
  · have := ((getFreqRange_modes_spec ("0".toList) ("3000".toList) 0 3000).1
      ha hb).1
    exact this
  · have := ((getFreqRange_modes_spec ("1000".toList) ("2000".toList)
      1000 2000).1 hc hd).2
    rw [this]
    norm_num
  · exact (getFreqRange_modes_spec ("1.5".toList) ("1.5".toList) 0 0).2
      (by decide)

/-- Claim C2, counterexample: configure with `bw_res = "10k"`, where
exactly that numeric resolution-bandwidth write fails and every other
write would succeed.  The run issues only the failed bandwidth write —
in particular no `:FREQ:STAR` write is issued — because the single
`try`/`except` of `_configure_sa` aborts the remaining writes. -/
theorem configureSa_blocked_writes_counterexample :
    configureSa okExceptBandRes 0 3000 3001 ("10k".toList) ("10k".toList) =
      ([Cmd.bandRes 10000], true) ∧
    ¬ Cmd.freqStar 0 ∈
      (configureSa okExceptBandRes 0 3000 3001
        ("10k".toList) ("10k".toList)).1 := by
  have hbw : parseBw ("10k".toList) = some 10000 := by
    simp [parseBw, expandSuffix, pyFloat, pyFloatUnsigned, splitExpAux,
      parseMantissa, parseExpPart, digitsVal, trimWs, isPyWs]
    norm_num
  have h1 : resBwStep ("10k".toList) = some (Cmd.bandRes 10000) := by
    rw [resBwStep, if_neg (by decide), hbw]
    rfl
  have hcfg : configureSa okExceptBandRes 0 3000 3001
      ("10k".toList) ("10k".toList) = ([Cmd.bandRes 10000], true) := by
    unfold configureSa
    rw [h1]
    simp [okExceptBandRes]
  refine ⟨hcfg, ?_⟩
  rw [hcfg]
  simp

/-- Claim C2 (amended): all configuration writes of `_configure_sa` sit
inside one `try`/`except`.  A write failure is caught and logged instead
of propagating, but it aborts the remainder of the sequence: when the
resolution-bandwidth write fails, it is the only write issued and none
of the subsequent writes (start frequency among them) happen. -/
theorem configureSa_single_try_abort :
    ∀ (ok : Cmd → Bool) (s t : ℚ) (p : ℕ) (bwRes bwVid : List Char)
      (c1 : Cmd),
      resBwStep bwRes = some c1 → ok c1 = false →
      configureSa ok s t p bwRes bwVid = ([c1], true) ∧
      ∀ q, ¬ Cmd.freqStar q ∈ (configureSa ok s t p bwRes bwVid).1 := by
  intro ok s t p bwRes bwVid c1 h1 h2
  have hcfg : configureSa ok s t p bwRes bwVid = ([c1], true) := by
    unfold configureSa
    rw [h1]
    simp [h2]
  refine ⟨hcfg, ?_⟩
  intro q
  rw [hcfg]
  unfold resBwStep at h1
  by_cases hb : bwRes = "auto".toList
  · rw [if_pos hb] at h1
    have hc1 : c1 = Cmd.bandResAuto := by
      injection h1 with h1
      exact h1.symm
    subst hc1
    simp
  · rw [if_neg hb] at h1
    cases hpb : parseBw bwRes with
    | none => rw [hpb] at h1; simp at h1
    | some vq =>
      rw [hpb] at h1
      have hc1 : c1 = Cmd.bandRes vq := by
        simp at h1
        exact h1.symm
      subst hc1
      simp

/-- Witness for `configureSa_single_try_abort`: with the `auto` sentinel
and every write failing, only the `:BAND:RES:AUTO ON` write is issued
and the error is logged, not raised. -/
theorem configureSa_single_try_abort_witness :
    resBwStep ("auto".toList) = some Cmd.bandResAuto ∧
    configureSa (fun _ => false) 0 3000 3001 ("auto".toList) ("10k".toList) =
      ([Cmd.bandResAuto], true) := by
  have h1 : resBwStep ("auto".toList) = some Cmd.bandResAuto := by
    rw [resBwStep, if_pos (by decide)]
  exact ⟨h1,
    (configureSa_single_try_abort (fun _ => false) 0 3000 3001
      ("auto".toList) ("10k".toList) Cmd.bandResAuto h1 rfl).1⟩

/-- Claim C5: for a comma-separated amplitude payload (one whose first
character is not `#`) whose length fits a single-digit length-of-length
header, decoding the definite-length-framed payload yields exactly the
amplitudes of decoding the bare payload. -/
theorem decodeAmplitudes_block_eq_bare :
    ∀ (payload : List Char),
      (natDigits payload.length).length ≤ 9 →
      payload.head? ≠ some '#' →
      decodeAmplitudes (encodeBlock payload) = decodeAmplitudes payload := by
  intro payload h9 hhd
  unfold decodeAmplitudes
  rw [extractDataRegion_encodeBlock payload h9,
    extractDataRegion_not_hash payload hhd]

/-- Witness for `decodeAmplitudes_block_eq_bare` on the concrete payload
`"1.5,-3.25,7"`. -/
theorem decodeAmplitudes_block_eq_bare_witness :
    (natDigits ("1.5,-3.25,7".toList).length).length ≤ 9 ∧
    ("1.5,-3.25,7".toList).head? ≠ some '#' ∧
    decodeAmplitudes (encodeBlock ("1.5,-3.25,7".toList)) =
      decodeAmplitudes ("1.5,-3.25,7".toList) :=
  ⟨by decide, by decide,
    decodeAmplitudes_block_eq_bare ("1.5,-3.25,7".toList) (by decide)
      (by decide)⟩

/-- Claim C8: after triggering, `_single_sweep` sleeps
`max(1.5, 1.1 * duration)` where `duration` is the parsed `:SWE:TIME?`
response; a failed query/read or an unparsable response silently falls
back to the 1.5 s default duration and raises nothing. -/
theorem singleSweep_timing_spec :
    ∀ (resp : Option (List Char)),
      (∀ s v, resp = some s → pyFloat s = some v →
        singleSweepSleep resp = max (3 / 2) (v * (11 / 10))) ∧
      (∀ s, resp = some s → pyFloat s = none →
        singleSweepSleep resp = max (3 / 2) ((3 / 2) * (11 / 10))) ∧
      (resp = none →
        singleSweepSleep resp = max (3 / 2) ((3 / 2) * (11 / 10))) := by
  intro resp
  refine ⟨?_, ?_, ?_⟩
  · intro s v h1 h2
    subst h1
    simp [singleSweepSleep, h2]
  · intro s h1 h2
    subst h1
    simp [singleSweepSleep, h2]
  · intro h1
    subst h1
    rfl

/-- Witness for `singleSweep_timing_spec`: a parsable `2.5` response
sleeps `max(1.5, 2.75)`, an unparsable response uses the default. -/
theorem singleSweep_timing_spec_witness :
    pyFloat ("2.5".toList) = some (5 / 2) ∧
    singleSweepSleep (some ("2.5".toList)) = max (3 / 2) ((5 / 2) * (11 / 10)) ∧
    pyFloat ("abc".toList) = none ∧
    singleSweepSleep (some ("abc".toList)) =
      max (3 / 2) ((3 / 2) * (11 / 10)) := by
  have h1 : pyFloat ("2.5".toList) = some (5 / 2) := by
    simp [pyFloat, pyFloatUnsigned, splitExpAux, parseMantissa, digitsVal,
      trimWs, isPyWs]
    norm_num
  have h2 : pyFloat ("abc".toList) = none := by decide
  exact ⟨h1,
    (singleSweep_timing_spec (some ("2.5".toList))).1 _ _ rfl h1, h2,
    (singleSweep_timing_spec (some ("abc".toList))).2.1 _ rfl h2⟩

/-- Claim C10: calling `connect1` while the session is already connected
does not reconnect: it disconnects — continuous flag and indicator
cleared, handle dropped (a failing transport close is suppressed),
panel marked disconnected, peak-hold state discarded, plot cleared —
and the peer session's state is untouched.  The result is independent
of the close outcome and of any would-be connection attempt. -/
theorem connect_toggle_disconnect_spec :
    ∀ (v : Viewer) (ip : List Char) (cf cf2 : Bool)
      (att att2 : ConnectAttempt) (h : ℕ),
      v.sa1.inst = some h → ip ≠ [] →
      (connect1 v ip cf att).sa1.inst = none ∧
      (connect1 v ip cf att).sa1.continuous = false ∧
      (connect1 v ip cf att).sa1.panelConnected = false ∧
      (connect1 v ip cf att).sa1.panelContinuousActive = false ∧
      (connect1 v ip cf att).sa1.maxVals = none ∧
      (connect1 v ip cf att).sa1.maxFreqs = none ∧
      (connect1 v ip cf att).sa1.plotCleared = true ∧
      (connect1 v ip cf att).sa2 = v.sa2 ∧
      connect1 v ip cf att = connect1 v ip cf2 att2 := by
  intro v ip cf cf2 att att2 h h1 h2
  unfold connect1
  rw [if_neg h2, if_neg h2, h1]
  simp

/-- Witness for `connect_toggle_disconnect_spec` on a concrete connected
viewer state. -/
theorem connect_toggle_disconnect_spec_witness :
    (connect1
      ⟨⟨some 7, true, true, true, [], some [1], some [2], false⟩,
       ⟨none, false, false, false, [], none, none, false⟩⟩
      ("10.0.0.2".toList) true ConnectAttempt.failure).sa1.inst = none ∧
    (connect1
      ⟨⟨some 7, true, true, true, [], some [1], some [2], false⟩,
       ⟨none, false, false, false, [], none, none, false⟩⟩
      ("10.0.0.2".toList) true ConnectAttempt.failure).sa2 =
      ⟨none, false, false, false, [], none, none, false⟩ := by
  have h := connect_toggle_disconnect_spec
    ⟨⟨some 7, true, true, true, [], some [1], some [2], false⟩,
     ⟨none, false, false, false, [], none, none, false⟩⟩
    ("10.0.0.2".toList) true true ConnectAttempt.failure
    ConnectAttempt.failure 7 rfl (by decide)
  exact ⟨h.1, h.2.2.2.2.2.2.2.1⟩

-- continuous-loop lemmas ----------------------------------------------

theorem contLoop_error_at (flag inst ok : ℕ → Bool) :
    ∀ (k fuel m : ℕ), k < fuel →
      (∀ j, m ≤ j → j ≤ m + k → flag j = true ∧ inst j = true) →
      (∀ j, m ≤ j → j < m + k → ok j = true) →
      ok (m + k) = false →
      contLoop flag inst ok fuel m = (m + k + 1, LoopExit.iterError) := by
  intro k
  induction k with
  | zero =>
    intro fuel m hfuel hg hok hfail
    match fuel, hfuel with
    | f + 1, _ =>
      have h1 := hg m le_rfl (by omega)
      rw [contLoop, h1.1, h1.2]
      rw [Nat.add_zero] at hfail
      simp [hfail]
  | succ k ih =>
    intro fuel m hfuel hg hok hfail
    match fuel, hfuel with
    | f + 1, _ =>
      have h1 := hg m le_rfl (by omega)
      have hokm : ok m = true := hok m le_rfl (by omega)
      rw [contLoop, h1.1, h1.2, hokm]
      simp only [Bool.true_eq_false, if_false, if_true]
      have hrec := ih f (m + 1) (by omega)
        (fun j hj1 hj2 => hg j (by omega) (by omega))
        (fun j hj1 hj2 => hok j (by omega) (by omega))
        (by
          have he : m + 1 + k = m + (k + 1) := by omega
          rw [he]
          exact hfail)
      rw [hrec]
      have he2 : m + 1 + k + 1 = m + (k + 1) + 1 := by omega
      rw [he2]

theorem contLoop_le_of_flag_low (flag inst ok : ℕ → Bool) (m : ℕ)
    (hflag : ∀ j, m ≤ j → flag j = false) :
    ∀ (fuel k : ℕ), k ≤ m → (contLoop flag inst ok fuel k).1 ≤ m := by
  intro fuel
  induction fuel with
  | zero =>
    intro k hk
    simpa [contLoop] using hk
  | succ fuel ih =>
    intro k hk
    rw [contLoop]
    by_cases hf : flag k = false
    · simp [hf]
      exact hk
    · have hfk : flag k = true := by
        cases hv : flag k
        · exact absurd hv hf
        · rfl
      have hkm : k < m := by
        by_contra hcon
        have := hflag k (by omega)
        rw [this] at hfk
        exact absurd hfk (by simp)
      rw [hfk]
      simp only [Bool.true_eq_false, if_false]
      by_cases hi : inst k = false
      · simp [hi]
        omega
      · have hik : inst k = true := by
          cases hv : inst k
          · exact absurd hv hi
          · rfl
        rw [hik]
        simp only [Bool.true_eq_false, if_false]
        by_cases ho : ok k
        · rw [if_pos ho]
          exact ih (k + 1) (by omega)
        · rw [if_neg ho]
          simpa using hkm

/-- Claim C3: every exit of the continuous-sweep loop — running flag
cleared, per-iteration I/O error, disconnect, or even a setup failure —
runs the `finally` block: the `:INIT:CONT OFF` restore write is always
attempted and the running flag is always cleared.  Moreover a
per-iteration failure terminates the loop entirely: if the guard held
through iteration k, iterations before k succeeded and iteration k
fails, the run attempts exactly k + 1 iterations and exits with
`iterError`, regardless of the flag or instrument state afterwards. -/
theorem continuousRun_cleanup_and_error_stop :
    ∀ (setupOk : Bool) (flag inst ok : ℕ → Bool) (fuel : ℕ),
      (startContinuousRun setupOk flag inst ok fuel).runningFlagAfter = false ∧
      (startContinuousRun setupOk flag inst ok fuel).restoreTriggerIssued = true ∧
      (∀ k, k < fuel →
        (∀ j, j ≤ k → flag j = true ∧ inst j = true) →
        (∀ j, j < k → ok j = true) →
        ok k = false →
        startContinuousRun true flag inst ok fuel =
          { itersAttempted := k + 1, exitKind := LoopExit.iterError,
            runningFlagAfter := false, restoreTriggerIssued := true }) := by
  intro setupOk flag inst ok fuel
  refine ⟨?_, ?_, ?_⟩
  · unfold startContinuousRun
    cases setupOk <;> rfl
  · unfold startContinuousRun
    cases setupOk <;> rfl
  · intro k hk hg hok hfail
    have hloop := contLoop_error_at flag inst ok k fuel 0 hk
      (fun j hj1 hj2 => hg j (by omega))
      (fun j hj1 hj2 => hok j (by omega))
      (by rw [Nat.zero_add]; exact hfail)
    rw [Nat.zero_add] at hloop
    unfold startContinuousRun
    rw [if_pos rfl, hloop]

/-- Witness for `continuousRun_cleanup_and_error_stop`: with the guard
always passing and iteration 2 failing, the run attempts exactly 3
iterations, exits with an iteration error, clears the flag and attempts
the trigger restore. -/
theorem continuousRun_cleanup_witness :
    startContinuousRun true (fun _ => true) (fun _ => true)
      (fun j => j != 2) 10 =
      { itersAttempted := 3, exitKind := LoopExit.iterError,
        runningFlagAfter := false, restoreTriggerIssued := true } :=
  (continuousRun_cleanup_and_error_stop true (fun _ => true) (fun _ => true)
      (fun j => j != 2) 10).2.2 2 (by decide) (by decide) (by decide)
    (by decide)

/-- Claim C7: while a session's continuous loop is active, a second
"start continuous" request just toggles the running flag off and spawns
no second loop; once the flag reads false, the loop attempts at most one
further iteration (the one already past its guard check) and the run
ends with the non-continuous trigger restore issued and the flag
cleared. -/
theorem toggle_second_start_stops :
    ∀ (h : ℕ) (flag inst ok : ℕ → Bool) (fuel t : ℕ),
      toggleContinuous (some h) true = (false, false) ∧
      ((∀ j, t < j → flag j = false) →
        (startContinuousRun true flag inst ok fuel).itersAttempted ≤ t + 1 ∧
        (startContinuousRun true flag inst ok fuel).restoreTriggerIssued =
          true ∧
        (startContinuousRun true flag inst ok fuel).runningFlagAfter =
          false) := by
  intro h flag inst ok fuel t
  refine ⟨rfl, ?_⟩
  intro hflag
  refine ⟨?_, rfl, rfl⟩
  unfold startContinuousRun
  rw [if_pos rfl]
  exact contLoop_le_of_flag_low flag inst ok (t + 1)
    (fun j hj => hflag j (by omega)) fuel 0 (by omega)

/-- Witness for `toggle_second_start_stops`: the flag is cleared during
iteration 0 (all later guard checks read false), so the loop attempts
exactly one iteration. -/
theorem toggle_second_start_stops_witness :
    toggleContinuous (some 5) true = (false, false) ∧
    startContinuousRun true (fun j => j == 0) (fun _ => true)
      (fun _ => true) 10 =
      { itersAttempted := 1, exitKind := LoopExit.flagCleared,
        runningFlagAfter := false, restoreTriggerIssued := true } ∧
    (startContinuousRun true (fun j => j == 0) (fun _ => true)
      (fun _ => true) 10).itersAttempted ≤ 1 := by
  have h := toggle_second_start_stops 5 (fun j => j == 0) (fun _ => true)
    (fun _ => true) 10 0
  refine ⟨h.1, by decide, ?_⟩
  exact (h.2 (fun j hj => by
    have : ¬ j = 0 := by omega
    simp [this])).1

/-- Claim C4: peak-hold update reinitializes from copies of the incoming
trace when no state is held or the held length differs from the trace
length; otherwise it takes the element-wise maximum and leaves the held
frequency axis untouched; after a reset, the next update reinitializes
from the incoming trace. -/
theorem peakHold_update_spec :
    ∀ (st : PeakHold) (freqs vals : List ℚ),
      ((st.maxVals = none ∨ st.maxFreqs = none ∨
          (∀ mv, st.maxVals = some mv → ¬ mv.length = vals.length)) →
        updatePlot st freqs vals =
          { maxFreqs := some freqs, maxVals := some vals }) ∧
      (∀ mv mf, st.maxVals = some mv → st.maxFreqs = some mf →
        mv.length = vals.length →
        (updatePlot st freqs vals).maxFreqs = some mf ∧
        (updatePlot st freqs vals).maxVals =
          some (List.zipWith max mv vals) ∧
        ∀ i (h1 : i < mv.length) (h2 : i < vals.length),
          (List.zipWith max mv vals).get
              ⟨i, by rw [List.length_zipWith]; omega⟩ =
            max (mv.get ⟨i, h1⟩) (vals.get ⟨i, h2⟩)) ∧
      (updatePlot resetPeak freqs vals =
        { maxFreqs := some freqs, maxVals := some vals }) := by
  intro st freqs vals
  refine ⟨?_, ?_, ?_⟩
  · intro hcase
    unfold updatePlot
    rcases hmv : st.maxVals with _ | mv
    · rfl
    · rcases hmf : st.maxFreqs with _ | mf
      · rfl
      · rcases hcase with hc | hc | hc
        · rw [hmv] at hc
          exact absurd hc (by simp)
        · rw [hmf] at hc
          exact absurd hc (by simp)
        · have := hc mv hmv
          simp [this]
  · intro mv mf hmv hmf hlen
    unfold updatePlot
    rw [hmv, hmf]
    simp only [hlen, if_pos rfl]
    refine ⟨rfl, rfl, ?_⟩
    intro i h1 h2
    simp [List.get_eq_getElem, List.getElem_zipWith]
  · unfold updatePlot resetPeak
    rfl

/-- Witness for `peakHold_update_spec`: update([1,2,3]) then
update([0,5,1]) holds [1,5,3]; reset() then update([9]) holds [9]; an
update of different length reinitializes. -/
theorem peakHold_update_spec_witness :
    updatePlot resetPeak [10, 20, 30] [1, 2, 3] =
      { maxFreqs := some [10, 20, 30], maxVals := some [1, 2, 3] } ∧
    (updatePlot { maxFreqs := some [10, 20, 30], maxVals := some [1, 2, 3] }
        [10, 20, 30] [0, 5, 1]).maxVals = some [1, 5, 3] ∧
    (updatePlot { maxFreqs := some [10, 20, 30], maxVals := some [1, 2, 3] }
        [10, 20, 30] [0, 5, 1]).maxFreqs = some [10, 20, 30] ∧
    updatePlot resetPeak [40] [9] =
      { maxFreqs := some [40], maxVals := some [9] } ∧
    updatePlot { maxFreqs := some [10, 20, 30], maxVals := some [1, 5, 3] }
        [7] [4] = { maxFreqs := some [7], maxVals := some [4] } := by
  have h1 := (peakHold_update_spec resetPeak [10, 20, 30] [1, 2, 3]).2.2
  have h2 := (peakHold_update_spec
    { maxFreqs := some [10, 20, 30], maxVals := some [1, 2, 3] }
    [10, 20, 30] [0, 5, 1]).2.1 [1, 2, 3] [10, 20, 30] rfl rfl rfl
  have h3 := (peakHold_update_spec resetPeak [40] [9]).2.2
  have h4 := (peakHold_update_spec
    { maxFreqs := some [10, 20, 30], maxVals := some [1, 5, 3] } [7] [4]).1
    (Or.inr (Or.inr (fun mv hmv => by
      simp only [Option.some.injEq] at hmv
      rw [← hmv]
      norm_num)))
  refine ⟨h1, ?_, h2.1, h3, h4⟩
  rw [h2.2.1]
  norm_num [List.zipWith]

/-- Claim C6, counterexample: a response decoding to a single amplitude
with start 0 and stop 100 gets the frequency axis [0]: exactly one
point, but the stop frequency 100 is not included, so the axis does not
run "from start to stop inclusive". -/
theorem readTrace_single_point_axis :
    readTraceAsciiBlock ("5.0".toList) 1 0 100 = some ([0], [5], false) ∧
    ¬ (100 : ℚ) ∈ [(0 : ℚ)] := by
  have hd : decodeAmplitudes (trimWs ("5.0".toList)) = some [5] := by
    simp [decodeAmplitudes, parseFloats, extractDataRegion, splitOnComma,
      trimWs, isPyWs, pyFloat, pyFloatUnsigned, splitExpAux, parseMantissa,
      digitsVal]
  constructor
  · unfold readTraceAsciiBlock
    rw [hd]
    simp [linspace]
  · norm_num

/-- Claim C6 (amended): the rebuilt frequency axis has exactly
`decodedCount` points (never the declared count); when
`decodedCount ≥ 2` they run evenly spaced from start to stop inclusive,
while a single decoded point gives the axis [start] and zero points the
empty axis; a decoded/declared mismatch only flips the warning flag and
never makes the decode fail. -/
theorem readTrace_axis_spec :
    ∀ (resp : List Char) (points : ℕ) (a b : ℚ)
      (freqs vals : List ℚ) (warn : Bool),
      readTraceAsciiBlock resp points a b = some (freqs, vals, warn) →
      freqs.length = vals.length ∧
      warn = (vals.length != points) ∧
      (∀ points2 : ℕ, (readTraceAsciiBlock resp points2 a b).isSome = true) ∧
      (2 ≤ vals.length →
        freqs[0]? = some a ∧
        freqs[vals.length - 1]? = some b ∧
        ∀ i, i + 1 < vals.length →
          freqs[i + 1]? =
            (freqs[i]?).map
              (fun x => x + (b - a) / ((vals.length : ℚ) - 1))) ∧
      (vals.length = 1 → freqs = [a]) ∧
      (vals.length = 0 → freqs = []) := by
  intro resp points a b freqs vals warn h
  unfold readTraceAsciiBlock at h
  cases hda : decodeAmplitudes (trimWs resp) with
  | none =>
    rw [hda] at h
    exact absurd h (by simp)
  | some vs =>
    rw [hda] at h
    simp only [Option.some.injEq, Prod.mk.injEq] at h
    obtain ⟨hf, hv, hw⟩ := h
    subst hv
    subst hf
    subst hw
    refine ⟨linspace_length a b vs.length, rfl, ?_, ?_, ?_, ?_⟩
    · intro points2
      unfold readTraceAsciiBlock
      rw [hda]
      rfl
    · intro hn
      refine ⟨linspace_first a b vs.length hn, ?_, ?_⟩
      · exact linspace_last a b vs.length hn
      · intro i hi
        exact linspace_step a b vs.length i hn hi
    · intro hn
      simp [linspace, hn]
    · intro hn
      simp [linspace, hn]

/-- Witness for `readTrace_axis_spec`: three decoded amplitudes with
start 0 and stop 100 give the axis [0, 50, 100]. -/
theorem readTrace_axis_spec_witness :
    readTraceAsciiBlock ("1.0,2.0,3.0".toList) 3 0 100 =
      some ([0, 50, 100], [1, 2, 3], false) ∧
    ([0, 50, 100] : List ℚ).length = ([1, 2, 3] : List ℚ).length := by
  have h : readTraceAsciiBlock ("1.0,2.0,3.0".toList) 3 0 100 =
      some ([0, 50, 100], [1, 2, 3], false) := by
    have hd : decodeAmplitudes (trimWs ("1.0,2.0,3.0".toList)) =
        some [1, 2, 3] := by
      simp [decodeAmplitudes, parseFloats, extractDataRegion, splitOnComma,
        trimWs, isPyWs, pyFloat, pyFloatUnsigned, splitExpAux, parseMantissa,
        digitsVal]
    have hr : List.range 3 = [0, 1, 2] := rfl
    unfold readTraceAsciiBlock
    rw [hd]
    simp [linspace, hr]
    norm_num
  exact ⟨h, (readTrace_axis_spec ("1.0,2.0,3.0".toList) 3 0 100
    [0, 50, 100] [1, 2, 3] false h).1⟩
